import Mathlib

set_option linter.unusedVariables false
set_option linter.unnecessarySimpa false
set_option linter.unreachableTactic false
set_option linter.unusedTactic false

/-!
Shallow embedding of the cne (czankel/cne) container runtime core:
the identity scheme (hex keys), the container lifecycle against the
containerd backend (load / create / commit / delete / exec), snapshot
leaf enumeration, and pull-progress aggregation from src/cli/common.go.

Backend containers, their labels, their tasks and the presence of an
active snapshot per key are modelled as explicit state; backend calls
(load, create, delete, set-labels, task operations) act on that state.
Bytes are modelled as Nat lists ([16]byte values as lists of length 16
with entries below 256).
-/

/-- Error classes of the cne errdefs taxonomy together with a constructor
for a Go runtime panic (some inputs of `splitCtrdID` trigger one). -/
inductive GoError where
  | notFound (kind target : String)
  | alreadyExists (kind target : String)
  | invalidArgument (msg : String)
  | runtimeError (msg : String)
  | goPanic (msg : String)
  deriving DecidableEq

/-- ctrderr.IsNotFound / errors.Is(err, errdefs.ErrNotFound): true exactly
for the not-found class. -/
def GoError.isNotFound : GoError → Bool
  | .notFound _ _ => true
  | _ => false

/-- Decidable equality for Except results (used to evaluate the embedded
operations on concrete inputs). -/
def exceptDecEq {ε α : Type} [DecidableEq ε] [DecidableEq α] :
    (a b : Except ε α) → Decidable (a = b)
  | .ok x, .ok y =>
    if h : x = y then .isTrue (congrArg Except.ok h)
    else .isFalse (fun hh => h (Except.ok.inj hh))
  | .ok _, .error _ => .isFalse (fun hh => Except.noConfusion hh)
  | .error _, .ok _ => .isFalse (fun hh => Except.noConfusion hh)
  | .error e, .error f =>
    if h : e = f then .isTrue (congrArg Except.error h)
    else .isFalse (fun hh => h (Except.error.inj hh))

instance {ε α : Type} [DecidableEq ε] [DecidableEq α] : DecidableEq (Except ε α) :=
  exceptDecEq

/-- Go map lookup (string-keyed association list). -/
def alookup {α : Type} : List (String × α) → String → Option α
  | [], _ => none
  | (k, v) :: rest, key => if key = k then some v else alookup rest key

/-- Go map assignment: replace the binding if the key is present,
append it otherwise. -/
def aset {α : Type} : List (String × α) → String → α → List (String × α)
  | [], key, v => [(key, v)]
  | (k, w) :: rest, key, v =>
    if key = k then (key, v) :: rest else (k, w) :: aset rest key v

/-- Go map delete. -/
def aerase {α : Type} (l : List (String × α)) (key : String) : List (String × α) :=
  l.filter (fun p => p.1 ≠ key)

/-! ### Hex encoding (encoding/hex) and the containerd ID scheme -/

/-- The nibble-to-character table of encoding/hex ("0123456789abcdef"):
digits for values below 10, lowercase letters up to 15. The fallback arm
is unreachable for byte nibbles. -/
def hexDigitChar (n : Nat) : Char :=
  if n < 10 then Char.ofNat (48 + n)
  else if n < 16 then Char.ofNat (87 + n)
  else '0'

/-- hex.EncodeToString of one byte: high nibble then low nibble. -/
def encodeByte (b : Nat) : List Char := [hexDigitChar (b / 16), hexDigitChar (b % 16)]

/-- hex.EncodeToString over a byte slice. -/
def hexEncode : List Nat → List Char
  | [] => []
  | b :: rest => encodeByte b ++ hexEncode rest

/-- hex digit value of a character; Go accepts 0-9, a-f and A-F. -/
def fromHexChar (c : Char) : Option Nat :=
  if 48 ≤ c.toNat ∧ c.toNat ≤ 57 then some (c.toNat - 48)
  else if 97 ≤ c.toNat ∧ c.toNat ≤ 102 then some (c.toNat - 87)
  else if 65 ≤ c.toNat ∧ c.toNat ≤ 70 then some (c.toNat - 55)
  else none

/-- hex.DecodeString: fails (none) on an odd-length input or a non-hex
character, otherwise yields the byte slice. -/
def hexDecode : List Char → Option (List Nat)
  | [] => some []
  | [_] => none
  | c1 :: c2 :: rest =>
    match fromHexChar c1, fromHexChar c2, hexDecode rest with
    | some h, some l, some r => some ((16 * h + l) :: r)
    | _, _, _ => none

/-- Go `var dom [16]byte; copy(dom[:], s)`: the first 16 bytes of `s`
land at the front, the remainder of the array stays zero. -/
def copy16 (l : List Nat) : List Nat :=
  l.take 16 ++ List.replicate (16 - l.length) 0

/-- strings.Index for a single-character separator (byte index of the
first occurrence, none when absent — Go returns -1 there). -/
def stringsIndex : List Char → Char → Option Nat
  | [], _ => none
  | x :: rest, c =>
    if x = c then some 0 else (stringsIndex rest c).map (· + 1)

/-- composeCtrdID: lowercase-hex(domain) ++ "-" ++ lowercase-hex(id). -/
def composeCtrdID (domain id : List Nat) : List Char :=
  hexEncode domain ++ '-' :: hexEncode id

/-- splitCtrdID: split at the first '-', hex-decode both parts into
zero-initialized 16-byte arrays. When no '-' occurs, Go computes
`ctrdID[:-1]`, which panics. A failed hex decode yields InvalidArgument. -/
def splitCtrdID (ctrdID : List Char) : Except GoError (List Nat × List Nat) :=
  match stringsIndex ctrdID '-' with
  | none => .error (.goPanic "slice bounds out of range")
  | some idx =>
    match hexDecode (ctrdID.take idx) with
    | none => .error (.invalidArgument "container ID is invalid")
    | some s1 =>
      match hexDecode (ctrdID.drop (idx + 1)) with
      | none => .error (.invalidArgument "container ID is invalid")
      | some s2 => .ok (copy16 s1, copy16 s2)

/-- Well-formed [16]byte value. -/
def WFBytes16 (l : List Nat) : Prop := l.length = 16 ∧ ∀ b ∈ l, b < 256

instance (l : List Nat) : Decidable (WFBytes16 l) :=
  inferInstanceAs (Decidable (l.length = 16 ∧ ∀ b ∈ l, b < 256))

def hexStr (b : List Nat) : String := String.mk (hexEncode b)

def composeCtrdIDStr (domain id : List Nat) : String := String.mk (composeCtrdID domain id)

/-! ### The backend data model -/

/-- Decoded OCI image config fields the lifecycle code reads. -/
structure ImageConfig where
  entrypoint : List String
  cmd : List String
  workingDir : String
  deriving DecidableEq

/-- runspecs.Process fields the lifecycle code manipulates. -/
structure ProcessSpec where
  args : List String
  cwd : String
  deriving DecidableEq

/-- runspecs.Spec: the process entry (nil-able) and whether spec.Linux
is non-nil (the completion logic branches on it). -/
structure RunSpec where
  process : Option ProcessSpec
  hasLinux : Bool
  deriving DecidableEq

inductive CtrdTaskStatus where
  | created
  | running
  | stopped
  deriving DecidableEq

/-- A containerd-side container object: its labels, its task (none when
no task exists) and the spec/image stored with it. -/
structure BackendContainer where
  labels : List (String × String)
  task : Option CtrdTaskStatus
  spec : RunSpec
  imageCfg : ImageConfig
  deriving DecidableEq

/-- A snapshots.Info record as seen by the Walk callback: name and parent
name ("" when the snapshot has no parent). The `domain` field is
Modelled from the spec: snapshots form a tree per (domain,id), so each
snapshot chain has an owning domain; the naming scheme that records it
lives in the snapshot store file, which is not under src/. -/
structure SnapInfo where
  name : String
  parent : String
  domain : List Nat
  deriving DecidableEq

/-- The containerd daemon state the embedded operations act on:
the container store (keyed by the composed ctrdID), the set of keys that
have an active snapshot (Modelled from the spec: `getActiveSnapshot
(domain,id) -> Snapshot | NotFound`, defined in the snapshot store file
not under src/), and the snapshot forest seen by Walk. -/
structure CtrdState where
  containers : List (String × BackendContainer)
  activeSnaps : List String
  snapInfos : List SnapInfo
  deriving DecidableEq

/-- Modelled from the spec: the backend label key holding the container's
generation; the constant's defining file is not under src/, the claims
need only that it is fixed and distinct from the uid label key. -/
def containerdGenerationLabel : String := "CNE-gen"

/-- Modelled from the spec: the backend label key holding the container's
uid. -/
def containerdUIDLabel : String := "CNE-uid"

/-- Go `labels[key]` on a map[string]string: missing keys read as "". -/
def labelGet (labels : List (String × String)) (key : String) : String :=
  (alookup labels key).getD ""

/-! ### Container lifecycle operations (src/runtime/containerd/containerd.go) -/

/-- getGeneration: read the generation label, hex-decode it, copy into a
16-byte array. Label-fetch and decode failures are wrapped runtime
errors. -/
def getGeneration (c : BackendContainer) : Except GoError (List Nat) :=
  match hexDecode (labelGet c.labels containerdGenerationLabel).data with
  | none => .error (.runtimeError "failed to decode generation")
  | some s => .ok (copy16 s)

def isDigitChar (c : Char) : Bool := decide (48 ≤ c.toNat ∧ c.toNat ≤ 57)

/-- strconv.ParseUint(val, 10, 32): decimal digits only, non-empty,
value below 2^32. -/
def parseUint32 (s : String) : Option Nat :=
  if s.data = [] then none
  else if s.data.all isDigitChar then
    if s.data.foldl (fun acc c => acc * 10 + (c.toNat - 48)) 0 < 4294967296 then
      some (s.data.foldl (fun acc c => acc * 10 + (c.toNat - 48)) 0)
    else none
  else none

/-- getUID: parse the uid label as a 32-bit decimal. -/
def getUID (c : BackendContainer) : Except GoError Nat :=
  match parseUint32 (labelGet c.labels containerdUIDLabel) with
  | none => .error (.runtimeError "invalid uid label")
  | some u => .ok u

/-- The in-memory container value (struct `container`): identity triple,
uid, spec, image config, and the containerd handle (the composed key)
when bound to a backend object. -/
structure container where
  domain : List Nat
  id : List Nat
  generation : List Nat
  uid : Nat
  spec : RunSpec
  image : ImageConfig
  ctrdContainer : Option String
  deriving DecidableEq

def container.Generation (ctr : container) : List Nat := ctr.generation

/-- Modelled from the spec: `deleteContainerSnapshots(domain,id)` removes
the whole snapshot chain for a key (used only under explicit purge); its
defining file is not under src/. No claim exercises the purge path. -/
def deleteContainerSnapshots (st : CtrdState) (domain id : List Nat) : CtrdState :=
  { st with
    activeSnaps := st.activeSnaps.filter (fun k => k ≠ composeCtrdIDStr domain id),
    snapInfos := st.snapInfos.filter (fun s => s.domain ≠ domain) }

/-- deleteCtrdTask: a missing container (Task() reports not-found) or a
missing task counts as already deleted and succeeds. A live task is
stopped (wait, SIGKILL, wait for exit — backend task calls modelled as
succeeding) and then deleted; a stopped task is deleted directly. Both
arms leave the container with no task. -/
def deleteCtrdTask (st : CtrdState) (key : String) : CtrdState × Except GoError Unit :=
  match alookup st.containers key with
  | none => (st, .ok ())
  | some c =>
    match c.task with
    | none => (st, .ok ())
    | some _ =>
      ({ st with containers := aset st.containers key { c with task := none } }, .ok ())

/-- ctrdCtr.Delete(ctx, WithSnapshotCleanup) followed by the optional
purge: deleting an absent backend object is the backend's not-found
error, returned as-is. -/
def deleteCtrdBackend (st : CtrdState) (key : String) (domain id : List Nat)
    (purge : Bool) : CtrdState × Except GoError Unit :=
  match alookup st.containers key with
  | none => (st, .error (.notFound "container" key))
  | some _ =>
    (if purge then
       deleteContainerSnapshots { st with containers := aerase st.containers key } domain id
     else { st with containers := aerase st.containers key }, .ok ())

/-- deleteCtrdContainer: tear down the task (its not-found is ignored),
then delete the backend object, then purge snapshots when requested. -/
def deleteCtrdContainer (st : CtrdState) (key : String) (domain id : List Nat)
    (purge : Bool) : CtrdState × Except GoError Unit :=
  match deleteCtrdTask st key with
  | (st1, .error e) =>
    if e.isNotFound then deleteCtrdBackend st1 key domain id purge
    else (st1, .error e)
  | (st1, .ok _) => deleteCtrdBackend st1 key domain id purge

/-- getContainer: load by composed key; absent -> NotFound; stored
generation label mismatch -> NotFound (state untouched); matching but no
active snapshot -> tear the container down (purge=false, error ignored)
and report NotFound; otherwise return the loaded container value. -/
def getContainer (st : CtrdState) (domain id generation : List Nat) :
    CtrdState × Except GoError container :=
  match alookup st.containers (composeCtrdIDStr domain id) with
  | none => (st, .error (.notFound "container" (composeCtrdIDStr domain id)))
  | some ctrdCtr =>
    match getGeneration ctrdCtr with
    | .error e => (st, .error e)
    | .ok ctrdGen =>
      if ctrdGen ≠ generation then
        (st, .error (.notFound "container" (composeCtrdIDStr domain id)))
      else
        match getUID ctrdCtr with
        | .error e => (st, .error e)
        | .ok uid =>
          if composeCtrdIDStr domain id ∈ st.activeSnaps then
            (st, .ok { domain := domain, id := id, generation := generation,
                       uid := uid, spec := ctrdCtr.spec, image := ctrdCtr.imageCfg,
                       ctrdContainer := some (composeCtrdIDStr domain id) })
          else
            ((deleteCtrdContainer st (composeCtrdIDStr domain id) domain id false).1,
             .error (.notFound "container" (composeCtrdIDStr domain id)))

/-- Spec completion shared by Create and UpdateSpec: ensure a process
entry exists; when spec.Linux is non-nil, argv becomes the image's
entrypoint ++ cmd and cwd the image working dir, defaulting to "/". -/
def completeSpec (spec : RunSpec) (config : ImageConfig) : RunSpec :=
  if spec.hasLinux then
    { spec with
      process := some
        { args := config.entrypoint ++ config.cmd,
          cwd := if config.workingDir = "" then "/" else config.workingDir } }
  else
    match spec.process with
    | none => { spec with process := some { args := [], cwd := "" } }
    | some _ => spec

/-- client.NewContainer with the completed spec and the generation/uid
labels; containerd rejects an existing key (wrapped into a runtime
error by the caller's `runtime.Errorf`). -/
def createCtrdContainer (ctr : container) (st : CtrdState) (ctrdID gen : String) :
    container × CtrdState × Except GoError Unit :=
  match alookup st.containers ctrdID with
  | some _ => (ctr, st, .error (.runtimeError "failed to create container"))
  | none =>
    ({ ctr with ctrdContainer := some ctrdID },
     { st with
       containers := aset st.containers ctrdID
         (BackendContainer.mk
           (aset (aset [] containerdGenerationLabel gen) containerdUIDLabel (toString ctr.uid))
           none (completeSpec ctr.spec ctr.image) ctr.image) },
     .ok ())

/-- container.Create: an existing container under the key with the same
generation label is AlreadyExists; a differing one is deleted
(purge=false) before the new backend object is created with the
generation and uid labels. -/
def container.Create (ctr : container) (st : CtrdState) :
    container × CtrdState × Except GoError Unit :=
  match alookup st.containers (composeCtrdIDStr ctr.domain ctr.id) with
  | some ctrdCtr =>
    if labelGet ctrdCtr.labels containerdGenerationLabel = hexStr ctr.generation then
      ({ ctr with ctrdContainer := some (composeCtrdIDStr ctr.domain ctr.id) }, st,
       .error (.alreadyExists "container" (composeCtrdIDStr ctr.domain ctr.id)))
    else
      match deleteCtrdContainer st (composeCtrdIDStr ctr.domain ctr.id)
          ctr.domain ctr.id false with
      | (st1, .error e) =>
        ({ ctr with ctrdContainer := some (composeCtrdIDStr ctr.domain ctr.id) }, st1,
         .error e)
      | (st1, .ok _) =>
        createCtrdContainer { ctr with ctrdContainer := some (composeCtrdIDStr ctr.domain ctr.id) }
          st1 (composeCtrdIDStr ctr.domain ctr.id) (hexStr ctr.generation)
  | none =>
    createCtrdContainer ctr st (composeCtrdIDStr ctr.domain ctr.id) (hexStr ctr.generation)

/-- container.Commit: fetch the labels of the backend object, overwrite
only the generation label, store them back. The in-memory value is not
touched (the method assigns no field of ctr). -/
def container.Commit (ctr : container) (st : CtrdState) (gen : List Nat) :
    container × CtrdState × Except GoError Unit :=
  match ctr.ctrdContainer with
  | none => (ctr, st, .error (.goPanic "nil container"))
  | some key =>
    match alookup st.containers key with
    | none => (ctr, st, .error (.notFound "container" key))
    | some c =>
      (ctr,
       { st with
         containers := aset st.containers key
           { c with labels := aset c.labels containerdGenerationLabel (hexStr gen) } },
       .ok ())

/-- container.Delete: deleteCtrdContainer with purge=false. -/
def container.Delete (ctr : container) (st : CtrdState) : CtrdState × Except GoError Unit :=
  match ctr.ctrdContainer with
  | none => (st, .error (.goPanic "nil container"))
  | some key => deleteCtrdContainer st key ctr.domain ctr.id false

/-- The classification of ctrdProc.Start's result in container.Exec. As in
the source, the branch `err != nil && !ctrderr.IsNotFound(err)` maps to
NotFound(command = procSpec.Args[0]) and the remaining error case (a
not-found from the backend) to the wrapped runtime error. An empty argv
makes Args[0] panic. -/
def execStartClassify (st : CtrdState) (procSpec : ProcessSpec)
    (startResult : Except GoError Unit) : CtrdState × Except GoError Unit :=
  match startResult with
  | .ok _ => (st, .ok ())
  | .error e =>
    if ¬ e.isNotFound then
      match procSpec.args with
      | [] => (st, .error (.goPanic "index out of range"))
      | cmd :: _ => (st, .error (.notFound "command" cmd))
    else (st, .error (.runtimeError "starting process failed"))

/-- container.Exec: reuse the existing task, else create one bound to the
active snapshot's mounts (Modelled from the spec: getActiveSnapMounts
needs the active snapshot; its file is not under src/). The outcome of
the backend's process-start call is an input (`startResult`), since it
depends on the executable's existence inside the container. -/
def container.Exec (ctr : container) (st : CtrdState) (procSpec : ProcessSpec)
    (startResult : Except GoError Unit) : CtrdState × Except GoError Unit :=
  match ctr.ctrdContainer with
  | none => (st, .error (.goPanic "nil container"))
  | some key =>
    match alookup st.containers key with
    | none => (st, .error (.runtimeError "failed to get task"))
    | some c =>
      match c.task with
      | some _ => execStartClassify st procSpec startResult
      | none =>
        if key ∈ st.activeSnaps then
          execStartClassify
            { st with containers := aset st.containers key { c with task := some .created } }
            procSpec startResult
        else (st, .error (.runtimeError "failed to get task"))

/-! ### Snapshot enumeration (containerdRuntime.Snapshots) -/

/-- isParent[name] = true (idempotent set insert). -/
def snapInsert (l : List String) (x : String) : List String :=
  if x ∈ l then l else l ++ [x]

/-- One Walk callback invocation: record the snapshot unless its name is
already known as a parent; record its parent when non-empty. -/
def snapshotsStep (acc : List (String × SnapInfo) × List String) (info : SnapInfo) :
    List (String × SnapInfo) × List String :=
  (if info.name ∈ acc.2 then acc.1 else aset acc.1 info.name info,
   if info.parent = "" then acc.2 else snapInsert acc.2 info.parent)

/-- containerdRuntime.Snapshots: walk all snapshots of the namespace,
then delete every name recorded as a parent from the map and return the
remaining snapshots. The `domain` parameter is unused in the body. -/
def Snapshots (domain : List Nat) (infos : List SnapInfo) : List SnapInfo :=
  ((infos.foldl snapshotsStep ([], [])).2.foldl
      (fun m pname => aerase m pname)
      (infos.foldl snapshotsStep ([], [])).1).map (·.2)

/-- The parent names recorded by the walk (non-empty parent fields). -/
def snapParents (infos : List SnapInfo) : List String :=
  infos.filterMap (fun i => if i.parent = "" then none else some i.parent)

/-! ### Progress aggregation (showImageProgress, src/cli/common.go) -/

structure ProgressStatus where
  Reference : String
  Status : String
  Details : String
  Offset : Int
  Total : Int
  deriving DecidableEq

/-- The display state of showImageProgress: the first-seen order list
statRefs and the reference-to-latest-status map statCached. -/
structure ProgressState where
  statRefs : List String
  statCached : List (String × ProgressStatus)
  deriving DecidableEq

/-- One status event: append the reference to statRefs when unseen,
then store the status under the reference. -/
def progressStep (st : ProgressState) (s : ProgressStatus) : ProgressState :=
  { statRefs :=
      match alookup st.statCached s.Reference with
      | none => st.statRefs ++ [s.Reference]
      | some _ => st.statRefs,
    statCached := aset st.statCached s.Reference s }

/-- The state after consuming a finite sequence of batches from the
progress channel (the rendering in the loop body reads this state and
does not change it). -/
def showImageProgressState (batches : List (List ProgressStatus)) : ProgressState :=
  batches.foldl (fun st batch => batch.foldl progressStep st) ⟨[], []⟩

/-- Dedup keeping the first occurrence, relative to already-seen names
(specification-side description of first-seen order). -/
def firstSeenFrom (seen : List String) : List String → List String
  | [] => []
  | r :: rs =>
    if r ∈ seen then firstSeenFrom seen rs
    else r :: firstSeenFrom (seen ++ [r]) rs

/-- Dedup by first occurrence (specification-side). -/
def firstSeen (l : List String) : List String := firstSeenFrom [] l

/-- The most recently received status for a reference in a stream
(specification-side). -/
def lastStatus (r : String) : List ProgressStatus → Option ProgressStatus
  | [] => none
  | s :: rest =>
    match lastStatus r rest with
    | some x => some x
    | none => if s.Reference = r then some s else none

/-! ### Concrete values used by witnesses and counterexamples -/

def zeros16 : List Nat := List.replicate 16 0

def ones16 : List Nat := 1 :: List.replicate 15 0

def img0 : ImageConfig := ⟨[], [], ""⟩

def spec0 : RunSpec := ⟨none, false⟩

def key00 : String := composeCtrdIDStr zeros16 zeros16

/-- A backend container carrying only the generation label (zeros16). -/
def c0 : BackendContainer :=
  ⟨[(containerdGenerationLabel, hexStr zeros16)], none, spec0, img0⟩

/-- A backend container with generation label zeros16 and uid label "0". -/
def c0u : BackendContainer :=
  ⟨[(containerdGenerationLabel, hexStr zeros16), (containerdUIDLabel, "0")], none, spec0, img0⟩

/-- Like c0u but with a running task. -/
def cTask : BackendContainer :=
  ⟨[(containerdGenerationLabel, hexStr zeros16), (containerdUIDLabel, "0")],
   some .running, spec0, img0⟩

/-- Like c0u but with a stopped task. -/
def cStopped : BackendContainer :=
  ⟨[(containerdGenerationLabel, hexStr zeros16), (containerdUIDLabel, "0")],
   some .stopped, spec0, img0⟩

/-- An in-memory container bound to the key00 backend object. -/
def ctr00 : container := ⟨zeros16, zeros16, zeros16, 0, spec0, img0, some key00⟩

/-! ### Association list lemmas -/

theorem alookup_aset {α : Type} (l : List (String × α)) (k k' : String) (v : α) :
    alookup (aset l k v) k' = if k' = k then some v else alookup l k' := by
  induction l with
  | nil => simp [aset, alookup]
  | cons hd tl ih =>
    obtain ⟨k0, w⟩ := hd
    by_cases h : k = k0
    · subst h
      simp only [aset, if_pos rfl, alookup]
      by_cases h' : k' = k <;> simp [h']
    · simp only [aset, if_neg h, alookup, ih]
      by_cases h1 : k' = k0 <;> by_cases h2 : k' = k <;> simp_all

theorem alookup_aerase_self {α : Type} (l : List (String × α)) (k : String) :
    alookup (aerase l k) k = none := by
  induction l with
  | nil => rfl
  | cons hd tl ih =>
    obtain ⟨k0, w⟩ := hd
    by_cases h : k0 = k
    · simpa [aerase, List.filter_cons, h] using ih
    · simpa [aerase, List.filter_cons, h, alookup, Ne.symm h] using ih

theorem alookup_aerase_ne {α : Type} (l : List (String × α)) (k k' : String) (h : k' ≠ k) :
    alookup (aerase l k) k' = alookup l k' := by
  induction l with
  | nil => rfl
  | cons hd tl ih =>
    obtain ⟨k0, w⟩ := hd
    by_cases h0 : k0 = k
    · subst h0
      simpa [aerase, List.filter_cons, alookup, h] using ih
    · by_cases h1 : k' = k0 <;>
        simp_all [aerase, List.filter_cons, alookup, h0]

/-! ### Hex round-trip lemmas -/

theorem fromHexChar_hexDigitChar : ∀ n < 16, fromHexChar (hexDigitChar n) = some n := by
  decide

theorem hexDecode_cons2 (c1 c2 : Char) (rest : List Char) (h l : Nat) (r : List Nat)
    (h1 : fromHexChar c1 = some h) (h2 : fromHexChar c2 = some l)
    (h3 : hexDecode rest = some r) :
    hexDecode (c1 :: c2 :: rest) = some ((16 * h + l) :: r) := by
  simp [hexDecode, h1, h2, h3]

theorem hexDecode_hexEncode (bs : List Nat) (h : ∀ b ∈ bs, b < 256) :
    hexDecode (hexEncode bs) = some bs := by
  induction bs with
  | nil => rfl
  | cons b rest ih =>
    have hb : b < 256 := h b (by simp)
    have hhi : b / 16 < 16 := Nat.div_lt_of_lt_mul (by omega)
    have hlo : b % 16 < 16 := Nat.mod_lt _ (by norm_num)
    have hrest : hexDecode (hexEncode rest) = some rest := ih (fun x hx => h x (by simp [hx]))
    show hexDecode (encodeByte b ++ hexEncode rest) = some (b :: rest)
    simp only [encodeByte, List.cons_append, List.nil_append]
    rw [hexDecode_cons2 _ _ _ _ _ _ (fromHexChar_hexDigitChar _ hhi)
      (fromHexChar_hexDigitChar _ hlo) hrest]
    have hdm : 16 * (b / 16) + b % 16 = b := by omega
    rw [hdm]

theorem hexDigitChar_lt16_ne_dash : ∀ n < 16, hexDigitChar n ≠ '-' := by
  decide

theorem hexDigitChar_ne_dash (n : Nat) : hexDigitChar n ≠ '-' := by
  by_cases h : n < 16
  · exact hexDigitChar_lt16_ne_dash n h
  · have h10 : ¬ n < 10 := by omega
    simp [hexDigitChar, h, h10]

theorem dash_not_mem_hexEncode (bs : List Nat) : '-' ∉ hexEncode bs := by
  induction bs with
  | nil => simp [hexEncode]
  | cons b rest ih =>
    simp only [hexEncode, encodeByte, List.cons_append, List.nil_append, List.mem_cons]
    push_neg
    exact ⟨Ne.symm (hexDigitChar_ne_dash _), Ne.symm (hexDigitChar_ne_dash _), ih⟩

theorem stringsIndex_append_cons (l1 l2 : List Char) (c : Char) (h : c ∉ l1) :
    stringsIndex (l1 ++ c :: l2) c = some l1.length := by
  induction l1 with
  | nil => simp [stringsIndex]
  | cons x rest ih =>
    have hx : x ≠ c := fun hh => h (by simp [hh])
    have hrest : c ∉ rest := fun hh => h (by simp [hh])
    simp [stringsIndex, hx, ih hrest]

theorem take_append_self (l1 l2 : List Char) : (l1 ++ l2).take l1.length = l1 := by
  induction l1 with
  | nil => rfl
  | cons x rest ih => simp [List.take_succ_cons, ih]

theorem drop_append_cons (l1 l2 : List Char) (a : Char) :
    (l1 ++ a :: l2).drop (l1.length + 1) = l2 := by
  induction l1 with
  | nil => rfl
  | cons x rest ih => simpa [List.drop_succ_cons] using ih

theorem copy16_of_length (l : List Nat) (h : l.length = 16) : copy16 l = l := by
  have : l.take 16 = l := by
    rw [← h]
    exact List.take_length l
  simp [copy16, h, this]

/-- Claim C4: for all 16-byte values domain and id,
splitCtrdID (composeCtrdID domain id) succeeds and returns exactly
(domain, id). -/
theorem splitCtrdID_composeCtrdID (d i : List Nat) (hd : WFBytes16 d) (hi : WFBytes16 i) :
    splitCtrdID (composeCtrdID d i) = .ok (d, i) := by
  obtain ⟨hdl, hdb⟩ := hd
  obtain ⟨hil, hib⟩ := hi
  unfold splitCtrdID composeCtrdID
  simp only [stringsIndex_append_cons _ _ _ (dash_not_mem_hexEncode d),
    take_append_self, drop_append_cons, hexDecode_hexEncode d hdb,
    hexDecode_hexEncode i hib, copy16_of_length d hdl, copy16_of_length i hil]

/-- Witness for C4 at a concrete pair of 16-byte values. -/
theorem splitCtrdID_composeCtrdID_witness :
    splitCtrdID (composeCtrdID zeros16 ones16) = .ok (zeros16, ones16) :=
  splitCtrdID_composeCtrdID zeros16 ones16 (by decide) (by decide)

/-- Counterexample to claim C5: "ab-cd" is not two hex-encoded 16-byte
groups, yet splitCtrdID accepts it, zero-padding each decoded byte to 16
bytes; and a key without any delimiter panics instead of returning
InvalidArgument. -/
theorem splitCtrdID_short_groups_cex :
    splitCtrdID ['a', 'b', '-', 'c', 'd'] = .ok (copy16 [171], copy16 [205]) ∧
    splitCtrdID ['a', 'b', 'c'] = .error (.goPanic "slice bounds out of range") := by
  exact ⟨by decide, by decide⟩

/-- Claim C5 (amended): splitCtrdID returns InvalidArgument exactly when
the input has a delimiter and the part before the first '-' or the part
after it fails hex decoding; hex groups of any length are otherwise
accepted (zero-padded or truncated to 16 bytes), and an input with no
delimiter panics. -/
theorem splitCtrdID_amended :
    (∀ (cs : List Char) (idx : Nat), stringsIndex cs '-' = some idx →
       hexDecode (cs.take idx) = none ∨ hexDecode (cs.drop (idx + 1)) = none →
       splitCtrdID cs = .error (.invalidArgument "container ID is invalid")) ∧
    (∀ cs : List Char, stringsIndex cs '-' = none →
       splitCtrdID cs = .error (.goPanic "slice bounds out of range")) := by
  constructor
  · intro cs idx hidx hdec
    unfold splitCtrdID
    rw [hidx]
    rcases hdec with h1 | h2
    · simp [h1]
    · rcases hd1 : hexDecode (cs.take idx) with _ | s1
      · simp [hd1]
      · simp [hd1, h2]
  · intro cs h
    unfold splitCtrdID
    rw [h]

/-- Witness for the amended C5 at concrete malformed keys. -/
theorem splitCtrdID_amended_witness :
    splitCtrdID ['x', '-', 'a', 'b'] = .error (.invalidArgument "container ID is invalid") ∧
    splitCtrdID ['a', 'b'] = .error (.goPanic "slice bounds out of range") :=
  ⟨splitCtrdID_amended.1 ['x', '-', 'a', 'b'] 1 (by decide) (Or.inl (by decide)),
   splitCtrdID_amended.2 ['a', 'b'] (by decide)⟩

/-- Claim C1: a backend container under the key whose stored generation
label decodes to g1 makes getContainer with expected generation g2 ≠ g1
report NotFound and leave the whole backend state unchanged (no delete,
no modification). -/
theorem getContainer_stale_generation (st : CtrdState) (domain id g1 g2 : List Nat)
    (c : BackendContainer)
    (hc : alookup st.containers (composeCtrdIDStr domain id) = some c)
    (hg : getGeneration c = .ok g1) (hne : g1 ≠ g2) :
    getContainer st domain id g2
      = (st, .error (.notFound "container" (composeCtrdIDStr domain id))) := by
  simp only [getContainer, hc, hg]
  simp [hne]

/-- Witness for C1: generation label zeros16 stored, zeros16 committed,
lookup with ones16. -/
theorem getContainer_stale_generation_witness :
    getContainer ⟨[(key00, c0)], [], []⟩ zeros16 zeros16 ones16
      = (⟨[(key00, c0)], [], []⟩, .error (.notFound "container" key00)) :=
  getContainer_stale_generation ⟨[(key00, c0)], [], []⟩ zeros16 zeros16 zeros16 ones16 c0
    (by decide) (by decide) (by decide)

theorem aerase_aset {α : Type} (l : List (String × α)) (k : String) (v : α) :
    aerase (aset l k v) k = aerase l k := by
  induction l with
  | nil => simp [aset, aerase, List.filter_cons]
  | cons hd tl ih =>
    obtain ⟨k0, w⟩ := hd
    by_cases h : k = k0
    · subst h
      simp [aset, aerase, List.filter_cons]
    · simp [aset, aerase, List.filter_cons, h, Ne.symm h] at *
      exact ih

/-- Deleting a present backend container (purge=false) always succeeds and
its net effect on the state is the removal of the container's entry:
a live task is torn down first, but that entry is erased right after. -/
theorem deleteCtrdContainer_present (st : CtrdState) (key : String) (domain id : List Nat)
    (c : BackendContainer) (hc : alookup st.containers key = some c) :
    deleteCtrdContainer st key domain id false
      = ({ st with containers := aerase st.containers key }, .ok ()) := by
  rcases ht : c.task with _ | t
  · have h1 : deleteCtrdTask st key = (st, .ok ()) := by
      simp [deleteCtrdTask, hc, ht]
    simp [deleteCtrdContainer, h1, deleteCtrdBackend, hc]
  · have h1 : deleteCtrdTask st key
        = ({ st with containers := aset st.containers key { c with task := none } }, .ok ()) := by
      simp [deleteCtrdTask, hc, ht]
    have h2 : alookup (aset st.containers key { c with task := none }) key
        = some { c with task := none } := by
      simp [alookup_aset]
    simp [deleteCtrdContainer, h1, deleteCtrdBackend, h2, aerase_aset]

/-- Claim C2: a backend container whose stored generation label matches
but whose key has no active snapshot is torn down by getContainer
(purge=false: activeSnaps and snapInfos untouched in the resulting
state) and NotFound is returned; afterwards no backend container exists
under the key. -/
theorem getContainer_missing_snapshot_teardown (st : CtrdState) (domain id g : List Nat)
    (c : BackendContainer) (u : Nat)
    (hc : alookup st.containers (composeCtrdIDStr domain id) = some c)
    (hg : getGeneration c = .ok g) (hu : getUID c = .ok u)
    (hs : composeCtrdIDStr domain id ∉ st.activeSnaps) :
    getContainer st domain id g
      = ({ st with containers := aerase st.containers (composeCtrdIDStr domain id) },
         .error (.notFound "container" (composeCtrdIDStr domain id))) ∧
    alookup (aerase st.containers (composeCtrdIDStr domain id))
      (composeCtrdIDStr domain id) = none := by
  refine ⟨?_, alookup_aerase_self _ _⟩
  simp only [getContainer, hc, hg, hu]
  simp [hs, deleteCtrdContainer_present st _ domain id c hc]

/-- Witness for C2: matching generation, parsable uid label, no active
snapshot; the container entry is removed and NotFound reported. -/
theorem getContainer_missing_snapshot_teardown_witness :
    getContainer ⟨[(key00, c0u)], [], []⟩ zeros16 zeros16 zeros16
      = (⟨aerase [(key00, c0u)] key00, [], []⟩, .error (.notFound "container" key00)) ∧
    alookup (aerase [(key00, c0u)] key00) key00 = none :=
  getContainer_missing_snapshot_teardown ⟨[(key00, c0u)], [], []⟩ zeros16 zeros16 zeros16 c0u 0
    (by decide) (by decide) (by decide) (by decide)

/-- Claim C3: Create on a key already holding a backend container fails
with AlreadyExists (creating nothing, state unchanged) when the stored
generation label equals the container's generation, and otherwise first
removes the old container (task and object, snapshots untouched) and
creates a fresh backend object stamped with the generation and uid
labels. -/
theorem Create_reconciles (ctr : container) (st : CtrdState) (c : BackendContainer)
    (hc : alookup st.containers (composeCtrdIDStr ctr.domain ctr.id) = some c) :
    (labelGet c.labels containerdGenerationLabel = hexStr ctr.generation →
      container.Create ctr st
        = ({ ctr with ctrdContainer := some (composeCtrdIDStr ctr.domain ctr.id) }, st,
           .error (.alreadyExists "container" (composeCtrdIDStr ctr.domain ctr.id)))) ∧
    (labelGet c.labels containerdGenerationLabel ≠ hexStr ctr.generation →
      container.Create ctr st
        = ({ ctr with ctrdContainer := some (composeCtrdIDStr ctr.domain ctr.id) },
           { st with
             containers := aset (aerase st.containers (composeCtrdIDStr ctr.domain ctr.id))
               (composeCtrdIDStr ctr.domain ctr.id)
               (BackendContainer.mk
                 (aset (aset [] containerdGenerationLabel (hexStr ctr.generation))
                   containerdUIDLabel (toString ctr.uid))
                 none (completeSpec ctr.spec ctr.image) ctr.image) },
           .ok ()) ∧
      labelGet (aset (aset [] containerdGenerationLabel (hexStr ctr.generation))
          containerdUIDLabel (toString ctr.uid)) containerdGenerationLabel
        = hexStr ctr.generation ∧
      labelGet (aset (aset [] containerdGenerationLabel (hexStr ctr.generation))
          containerdUIDLabel (toString ctr.uid)) containerdUIDLabel
        = toString ctr.uid) := by
  constructor
  · intro heq
    simp only [container.Create, hc]
    simp [heq]
  · intro hne
    have hdel := deleteCtrdContainer_present st (composeCtrdIDStr ctr.domain ctr.id)
      ctr.domain ctr.id c hc
    have hnone : alookup (aerase st.containers (composeCtrdIDStr ctr.domain ctr.id))
        (composeCtrdIDStr ctr.domain ctr.id) = none := alookup_aerase_self _ _
    refine ⟨?_, ?_, ?_⟩
    · simp only [container.Create, hc]
      simp [hne, hdel, createCtrdContainer, hnone]
    · simp [labelGet, alookup_aset, containerdGenerationLabel, containerdUIDLabel]
    · simp [labelGet, alookup_aset]

/-- Witness for C3: same-generation Create fails AlreadyExists with the
state unchanged; different-generation Create replaces the container. -/
theorem Create_reconciles_witness :
    container.Create ⟨zeros16, zeros16, zeros16, 0, spec0, img0, none⟩ ⟨[(key00, c0)], [], []⟩
      = (⟨zeros16, zeros16, zeros16, 0, spec0, img0, some key00⟩, ⟨[(key00, c0)], [], []⟩,
         .error (.alreadyExists "container" key00)) ∧
    container.Create ⟨zeros16, zeros16, ones16, 0, spec0, img0, none⟩ ⟨[(key00, c0)], [], []⟩
      = (⟨zeros16, zeros16, ones16, 0, spec0, img0, some key00⟩,
         ⟨aset (aerase [(key00, c0)] key00) key00
            (BackendContainer.mk
              (aset (aset [] containerdGenerationLabel (hexStr ones16))
                containerdUIDLabel (toString 0))
              none (completeSpec spec0 img0) img0), [], []⟩,
         .ok ()) :=
  ⟨(Create_reconciles ⟨zeros16, zeros16, zeros16, 0, spec0, img0, none⟩
      ⟨[(key00, c0)], [], []⟩ c0 (by decide)).1 (by decide),
   ((Create_reconciles ⟨zeros16, zeros16, ones16, 0, spec0, img0, none⟩
      ⟨[(key00, c0)], [], []⟩ c0 (by decide)).2 (by decide)).1⟩

/-- Counterexample to claim C6: the first Delete on a present container
succeeds, but the second Delete in a row returns the backend's NotFound
error (ctrdCtr.Delete of the now-absent object is returned unfiltered),
so Delete is not idempotent at the container level. -/
theorem Delete_twice_errors_cex :
    (container.Delete ctr00 ⟨[(key00, c0u)], [], []⟩).2 = .ok () ∧
    (container.Delete ctr00 (container.Delete ctr00 ⟨[(key00, c0u)], [], []⟩).1).2
      = .error (.notFound "container" key00) := by
  exact ⟨by decide, by decide⟩

/-- Claim C6 (amended): deleting a task that is already absent or already
stopped is a no-op that succeeds, but Delete on a container whose backend
object is absent returns the backend's NotFound error; hence the second
of two consecutive Delete calls fails with NotFound instead of
succeeding. -/
theorem Delete_idempotence_amended :
    (∀ (st : CtrdState) (ctr : container) (key : String),
      ctr.ctrdContainer = some key → alookup st.containers key = none →
      container.Delete ctr st = (st, .error (.notFound "container" key))) ∧
    (∀ (st : CtrdState) (key : String) (c : BackendContainer),
      alookup st.containers key = some c → c.task = none →
      deleteCtrdTask st key = (st, .ok ())) ∧
    (∀ (st : CtrdState) (key : String) (c : BackendContainer),
      alookup st.containers key = some c → c.task = some .stopped →
      deleteCtrdTask st key
        = ({ st with containers := aset st.containers key { c with task := none } },
           .ok ())) := by
  refine ⟨?_, ?_, ?_⟩
  · intro st ctr key hk hnone
    have h1 : deleteCtrdTask st key = (st, .ok ()) := by
      simp [deleteCtrdTask, hnone]
    simp only [container.Delete, hk]
    simp [deleteCtrdContainer, h1, deleteCtrdBackend, hnone]
  · intro st key c hc ht
    simp [deleteCtrdTask, hc, ht]
  · intro st key c hc ht
    simp [deleteCtrdTask, hc, ht]

/-- Witness for the amended C6 at concrete states. -/
theorem Delete_idempotence_amended_witness :
    container.Delete ctr00 ⟨[], [], []⟩
      = (⟨[], [], []⟩, .error (.notFound "container" key00)) ∧
    deleteCtrdTask ⟨[(key00, c0u)], [], []⟩ key00 = (⟨[(key00, c0u)], [], []⟩, .ok ()) ∧
    deleteCtrdTask ⟨[(key00, cStopped)], [], []⟩ key00
      = (⟨aset [(key00, cStopped)] key00 { cStopped with task := none }, [], []⟩, .ok ()) :=
  ⟨Delete_idempotence_amended.1 ⟨[], [], []⟩ ctr00 key00 (by decide) (by decide),
   Delete_idempotence_amended.2.1 ⟨[(key00, c0u)], [], []⟩ key00 c0u (by decide) (by decide),
   Delete_idempotence_amended.2.2 ⟨[(key00, cStopped)], [], []⟩ key00 cStopped
     (by decide) (by decide)⟩

/-- Claim C7 describes the intended behavior; the code inverts the check
(`err != nil && !ctrderr.IsNotFound(err)` guards the NotFound(command)
return): when the backend start call reports not-found (missing
executable), Exec returns the generic wrapped runtime error, and any
other start failure is misclassified as NotFound(command). Evaluated here
on a container with an existing task. -/
theorem Exec_notFound_misclassified :
    container.Exec ctr00 ⟨[(key00, cTask)], [], []⟩ ⟨["/bin/missing"], "/"⟩
        (.error (.notFound "process" "/bin/missing"))
      = (⟨[(key00, cTask)], [], []⟩, .error (.runtimeError "starting process failed")) ∧
    container.Exec ctr00 ⟨[(key00, cTask)], [], []⟩ ⟨["/bin/missing"], "/"⟩
        (.error (.runtimeError "exec format error"))
      = (⟨[(key00, cTask)], [], []⟩, .error (.notFound "command" "/bin/missing")) := by
  exact ⟨by decide, by decide⟩

/-- Claim C9: Commit changes only the stored generation label of the
backend object under the container's key: the generation label becomes
hex(g), every other label keeps its value (in particular the uid label),
every other container entry is untouched, the rest of the backend record
(task, spec, image) is preserved, and the in-memory container value —
hence the generation reported by Generation() — is returned unchanged. -/
theorem Commit_frame (ctr : container) (st : CtrdState) (g : List Nat) (key : String)
    (c : BackendContainer) (hk : ctr.ctrdContainer = some key)
    (hc : alookup st.containers key = some c) :
    container.Commit ctr st g
      = (ctr,
         { st with
           containers := aset st.containers key
             { c with labels := aset c.labels containerdGenerationLabel (hexStr g) } },
         .ok ()) ∧
    container.Generation (container.Commit ctr st g).1 = container.Generation ctr ∧
    labelGet (aset c.labels containerdGenerationLabel (hexStr g)) containerdGenerationLabel
      = hexStr g ∧
    (∀ k, k ≠ containerdGenerationLabel →
      labelGet (aset c.labels containerdGenerationLabel (hexStr g)) k
        = labelGet c.labels k) ∧
    (∀ k, k ≠ key →
      alookup (aset st.containers key
          { c with labels := aset c.labels containerdGenerationLabel (hexStr g) }) k
        = alookup st.containers k) := by
  have hmain : container.Commit ctr st g
      = (ctr,
         { st with
           containers := aset st.containers key
             { c with labels := aset c.labels containerdGenerationLabel (hexStr g) } },
         .ok ()) := by
    simp only [container.Commit, hk, hc]
  refine ⟨hmain, by rw [hmain], ?_, ?_, ?_⟩
  · simp [labelGet, alookup_aset]
  · intro k hkk
    simp [labelGet, alookup_aset, hkk]
  · intro k hkk
    simp [alookup_aset, hkk]

/-- Witness for C9: commit generation ones16 over a container whose uid
label is "0"; the uid label is unchanged. -/
theorem Commit_frame_witness :
    container.Commit ctr00 ⟨[(key00, c0u)], [], []⟩ ones16
      = (ctr00,
         ⟨aset [(key00, c0u)] key00
            { c0u with labels := aset c0u.labels containerdGenerationLabel (hexStr ones16) },
          [], []⟩,
         .ok ()) ∧
    labelGet (aset c0u.labels containerdGenerationLabel (hexStr ones16)) containerdUIDLabel
      = labelGet c0u.labels containerdUIDLabel :=
  ⟨(Commit_frame ctr00 ⟨[(key00, c0u)], [], []⟩ ones16 key00 c0u (by decide) (by decide)).1,
   (Commit_frame ctr00 ⟨[(key00, c0u)], [], []⟩ ones16 key00 c0u
      (by decide) (by decide)).2.2.2.1 containerdUIDLabel (by decide)⟩

theorem mem_keys_aset {α : Type} (m : List (String × α)) (k : String) (v : α) (x : String) :
    x ∈ (aset m k v).map Prod.fst ↔ x = k ∨ x ∈ m.map Prod.fst := by
  induction m with
  | nil => simp [aset]
  | cons hd tl ih =>
    obtain ⟨k0, w⟩ := hd
    by_cases h : k = k0
    · subst h
      simp [aset]
    · simp [aset, h, ih]
      tauto

theorem aset_entry_mem {α : Type} (m : List (String × α)) (k : String) (v : α)
    (e : String × α) (he : e ∈ aset m k v) : e = (k, v) ∨ e ∈ m := by
  induction m with
  | nil => simpa [aset] using he
  | cons hd tl ih =>
    obtain ⟨k0, w⟩ := hd
    by_cases h : k = k0
    · subst h
      rcases (by simpa [aset] using he : e = (k, v) ∨ e ∈ tl) with h1 | h1
      · exact Or.inl h1
      · exact Or.inr (by simp [h1])
    · rcases (by simpa [aset, h] using he : e = (k0, w) ∨ e ∈ aset tl k v) with h1 | h1
      · exact Or.inr (by simp [h1])
      · rcases ih h1 with h2 | h2
        · exact Or.inl h2
        · exact Or.inr (by simp [h2])

theorem mem_snapInsert (l : List String) (y x : String) :
    x ∈ snapInsert l y ↔ x ∈ l ∨ x = y := by
  by_cases h : y ∈ l
  · simp [snapInsert, h]
    intro hx
    subst hx
    exact h
  · simp [snapInsert, h]

theorem mem_snapParents_cons (i : SnapInfo) (rest : List SnapInfo) (x : String) :
    x ∈ snapParents (i :: rest) ↔ (¬ i.parent = "" ∧ x = i.parent) ∨ x ∈ snapParents rest := by
  by_cases hp : i.parent = "" <;> simp [snapParents, List.filterMap_cons, hp] <;> tauto

theorem snapshots_fold_parents (infos : List SnapInfo) :
    ∀ (m : List (String × SnapInfo)) (p : List String) (x : String),
      x ∈ (infos.foldl snapshotsStep (m, p)).2 ↔ x ∈ p ∨ x ∈ snapParents infos := by
  induction infos with
  | nil =>
    intro m p x
    simp [snapParents]
  | cons i rest ih =>
    intro m p x
    simp only [List.foldl_cons, snapshotsStep]
    rw [ih]
    rw [mem_snapParents_cons]
    by_cases hp : i.parent = ""
    · simp [hp]
    · simp [hp, mem_snapInsert]
      tauto

theorem snapshots_fold_keys_mono (infos : List SnapInfo) :
    ∀ (m : List (String × SnapInfo)) (p : List String) (x : String),
      x ∈ m.map Prod.fst → x ∈ ((infos.foldl snapshotsStep (m, p)).1).map Prod.fst := by
  induction infos with
  | nil =>
    intro m p x hx
    simpa using hx
  | cons i rest ih =>
    intro m p x hx
    simp only [List.foldl_cons, snapshotsStep]
    apply ih
    by_cases h : i.name ∈ p
    · rw [if_pos h]
      exact hx
    · rw [if_neg h]
      exact (mem_keys_aset m i.name i x).mpr (Or.inr hx)

theorem snapshots_fold_keys_sub (infos : List SnapInfo) :
    ∀ (m : List (String × SnapInfo)) (p : List String) (x : String),
      x ∈ ((infos.foldl snapshotsStep (m, p)).1).map Prod.fst →
      x ∈ m.map Prod.fst ∨ x ∈ infos.map SnapInfo.name := by
  induction infos with
  | nil =>
    intro m p x hx
    exact Or.inl (by simpa using hx)
  | cons i rest ih =>
    intro m p x hx
    simp only [List.foldl_cons, snapshotsStep] at hx
    rcases ih _ _ _ hx with h1 | h1
    · by_cases h : i.name ∈ p
      · rw [if_pos h] at h1
        exact Or.inl h1
      · rw [if_neg h] at h1
        rcases (mem_keys_aset m i.name i x).mp h1 with h2 | h2
        · exact Or.inr (by simp [h2])
        · exact Or.inl h2
    · exact Or.inr (by simp [h1])

theorem snapshots_fold_keys_add (infos : List SnapInfo) :
    ∀ (m : List (String × SnapInfo)) (p : List String) (x : String),
      x ∈ infos.map SnapInfo.name → x ∉ p → x ∉ snapParents infos →
      x ∈ ((infos.foldl snapshotsStep (m, p)).1).map Prod.fst := by
  induction infos with
  | nil =>
    intro m p x hx
    simp at hx
  | cons i rest ih =>
    intro m p x hx hxp hxpar
    have hxpar1 : x ∉ snapParents rest := by
      intro hmem
      exact hxpar ((mem_snapParents_cons i rest x).mpr (Or.inr hmem))
    have hxp1 : x ∉ (if i.parent = "" then p else snapInsert p i.parent) := by
      by_cases hp : i.parent = ""
      · simpa [hp] using hxp
      · have hxne : x ≠ i.parent := by
          intro heq
          exact hxpar ((mem_snapParents_cons i rest x).mpr (Or.inl ⟨hp, heq⟩))
        simp [hp, mem_snapInsert]
        tauto
    simp only [List.foldl_cons, snapshotsStep]
    rcases (by simpa using hx : x = i.name ∨ x ∈ rest.map SnapInfo.name) with h1 | h1
    · subst h1
      apply snapshots_fold_keys_mono
      rw [if_neg hxp]
      exact (mem_keys_aset m i.name i i.name).mpr (Or.inl rfl)
    · exact ih _ _ _ h1 hxp1 hxpar1

theorem snapshots_fold_entries (infos : List SnapInfo) :
    ∀ (m : List (String × SnapInfo)) (p : List String) (e : String × SnapInfo),
      e ∈ (infos.foldl snapshotsStep (m, p)).1 →
      e ∈ m ∨ (e.2 ∈ infos ∧ e.1 = e.2.name) := by
  induction infos with
  | nil =>
    intro m p e he
    exact Or.inl (by simpa using he)
  | cons i rest ih =>
    intro m p e he
    simp only [List.foldl_cons, snapshotsStep] at he
    rcases ih _ _ _ he with h1 | h1
    · by_cases h : i.name ∈ p
      · rw [if_pos h] at h1
        exact Or.inl h1
      · rw [if_neg h] at h1
        rcases aset_entry_mem m i.name i e h1 with h2 | h2
        · subst h2
          exact Or.inr ⟨by simp, rfl⟩
        · exact Or.inl h2
    · exact Or.inr ⟨by simp [h1.1], h1.2⟩

theorem mem_foldl_aerase {α : Type} (ps : List String) :
    ∀ (m : List (String × α)) (e : String × α),
      e ∈ ps.foldl (fun m p => aerase m p) m ↔ e ∈ m ∧ e.1 ∉ ps := by
  induction ps with
  | nil =>
    intro m e
    simp
  | cons p rest ih =>
    intro m e
    simp only [List.foldl_cons]
    rw [ih]
    simp [aerase, List.mem_filter]
    tauto

/-- Counterexample to claim C8: Snapshots ignores its domain argument, so
querying domain ones16 returns a leaf snapshot whose owning domain is
zeros16 — the result is not "exactly the snapshots belonging to that
domain". -/
theorem Snapshots_foreign_domain_cex :
    Snapshots ones16 [⟨"s1", "", zeros16⟩] = [⟨"s1", "", zeros16⟩] ∧ zeros16 ≠ ones16 := by
  exact ⟨by decide, by decide⟩

/-- Claim C8 (amended): Snapshots ignores its domain argument and returns,
for the entire namespace, exactly the walked snapshots whose names are
not recorded as the parent of any other snapshot — independent of walk
order, since membership is characterized by the walked set alone. -/
theorem Snapshots_leaves_amended :
    (∀ (d d' : List Nat) (infos : List SnapInfo), Snapshots d infos = Snapshots d' infos) ∧
    (∀ (d : List Nat) (infos : List SnapInfo) (x : String),
      x ∈ (Snapshots d infos).map SnapInfo.name ↔
        x ∈ infos.map SnapInfo.name ∧ x ∉ snapParents infos) := by
  constructor
  · intro d d' infos
    rfl
  · intro d infos x
    simp only [Snapshots]
    constructor
    · intro hx
      rcases List.mem_map.mp hx with ⟨s, hs, rfl⟩
      rcases List.mem_map.mp hs with ⟨e, he, rfl⟩
      have hmem := (mem_foldl_aerase _ _ _).mp he
      rcases snapshots_fold_entries infos [] [] e hmem.1 with h0 | ⟨hein, hname⟩
      · simp at h0
      · constructor
        · exact List.mem_map.mpr ⟨e.2, hein, rfl⟩
        · intro hpar
          apply hmem.2
          exact (snapshots_fold_parents infos [] [] e.1).mpr (Or.inr (hname ▸ hpar))
    · rintro ⟨hxn, hxp⟩
      have hkey : x ∈ ((infos.foldl snapshotsStep ([], [])).1).map Prod.fst :=
        snapshots_fold_keys_add infos [] [] x hxn (by simp) hxp
      rcases List.mem_map.mp hkey with ⟨e, he, hex⟩
      have hnotp : e.1 ∉ (infos.foldl snapshotsStep ([], [])).2 := by
        rw [hex]
        intro hmem
        rcases (snapshots_fold_parents infos [] [] x).mp hmem with h | h
        · simp at h
        · exact hxp h
      have hefil : e ∈ (infos.foldl snapshotsStep ([], [])).2.foldl
          (fun m pname => aerase m pname) (infos.foldl snapshotsStep ([], [])).1 :=
        (mem_foldl_aerase _ _ _).mpr ⟨he, hnotp⟩
      have hname : e.1 = e.2.name := by
        rcases snapshots_fold_entries infos [] [] e he with h0 | h0
        · simp at h0
        · exact h0.2
      refine List.mem_map.mpr ⟨e.2, List.mem_map.mpr ⟨e, hefil, rfl⟩, ?_⟩
      rw [← hname, hex]

/-! ### Progress aggregation lemmas -/

theorem foldl_join_eq {α β : Type} (f : β → α → β) :
    ∀ (L : List (List α)) (b : β),
      (L.flatten).foldl f b = L.foldl (fun acc l => l.foldl f acc) b := by
  intro L
  induction L with
  | nil => intro b; rfl
  | cons l rest ih =>
    intro b
    simp [List.flatten, List.foldl_append, ih]

theorem mem_firstSeenFrom (l : List String) :
    ∀ (seen : List String) (x : String),
      x ∈ firstSeenFrom seen l ↔ x ∈ l ∧ x ∉ seen := by
  induction l with
  | nil =>
    intro seen x
    simp [firstSeenFrom]
  | cons r rs ih =>
    intro seen x
    by_cases h : r ∈ seen
    · by_cases hx : x = r <;> simp_all [firstSeenFrom, h, ih]
    · by_cases hx : x = r <;> simp_all [firstSeenFrom, h, ih]

theorem nodup_firstSeenFrom (l : List String) :
    ∀ (seen : List String), (firstSeenFrom seen l).Nodup := by
  induction l with
  | nil =>
    intro seen
    simp [firstSeenFrom]
  | cons r rs ih =>
    intro seen
    by_cases h : r ∈ seen
    · simp [firstSeenFrom, h, ih]
    · simp only [firstSeenFrom, if_neg h, List.nodup_cons]
      refine ⟨?_, ih _⟩
      intro hmem
      rcases (mem_firstSeenFrom rs _ r).mp hmem with ⟨_, hnot⟩
      exact hnot (by simp)

theorem progress_inv_step (st : ProgressState) (s : ProgressStatus)
    (hinv : ∀ r, (alookup st.statCached r).isSome ↔ r ∈ st.statRefs) :
    ∀ r, (alookup (progressStep st s).statCached r).isSome
      ↔ r ∈ (progressStep st s).statRefs := by
  intro r
  rcases hl : alookup st.statCached s.Reference with _ | v
  · by_cases hr : r = s.Reference
    · simp [progressStep, hl, alookup_aset, hr]
    · simp [progressStep, hl, alookup_aset, hr, hinv r]
  · have hsmem : s.Reference ∈ st.statRefs := (hinv _).mp (by rw [hl]; rfl)
    by_cases hr : r = s.Reference
    · subst hr
      simp [progressStep, hl, alookup_aset, hsmem]
    · simp [progressStep, hl, alookup_aset, hr, hinv r]

theorem progress_fold_statRefs (stream : List ProgressStatus) :
    ∀ (st : ProgressState),
      (∀ r, (alookup st.statCached r).isSome ↔ r ∈ st.statRefs) →
      (stream.foldl progressStep st).statRefs
        = st.statRefs ++ firstSeenFrom st.statRefs (stream.map ProgressStatus.Reference) := by
  induction stream with
  | nil =>
    intro st hinv
    simp [firstSeenFrom]
  | cons s rest ih =>
    intro st hinv
    have hinv1 := progress_inv_step st s hinv
    simp only [List.foldl_cons, List.map_cons, firstSeenFrom]
    by_cases h : s.Reference ∈ st.statRefs
    · have hsome : (alookup st.statCached s.Reference).isSome := (hinv _).mpr h
      have hstep : (progressStep st s).statRefs = st.statRefs := by
        rcases hl : alookup st.statCached s.Reference with _ | v
        · rw [hl] at hsome
          simp at hsome
        · simp [progressStep, hl]
      rw [ih _ hinv1, hstep, if_pos h]
    · have hnone : alookup st.statCached s.Reference = none := by
        rcases hl : alookup st.statCached s.Reference with _ | v
        · rfl
        · exact absurd ((hinv _).mp (by rw [hl]; rfl)) h
      have hstep : (progressStep st s).statRefs = st.statRefs ++ [s.Reference] := by
        simp [progressStep, hnone]
      rw [ih _ hinv1, hstep, if_neg h]
      simp [List.append_assoc]

theorem progress_fold_statCached (stream : List ProgressStatus) :
    ∀ (st : ProgressState) (r : String),
      alookup (stream.foldl progressStep st).statCached r
        = match lastStatus r stream with
          | some x => some x
          | none => alookup st.statCached r := by
  induction stream with
  | nil =>
    intro st r
    simp [lastStatus]
  | cons s rest ih =>
    intro st r
    have hstep : alookup (progressStep st s).statCached r
        = if r = s.Reference then some s else alookup st.statCached r := by
      rcases hl : alookup st.statCached s.Reference with _ | v <;>
        simp [progressStep, hl, alookup_aset]
    simp only [List.foldl_cons, lastStatus]
    rw [ih, hstep]
    rcases hls : lastStatus r rest with _ | x
    · by_cases hr : s.Reference = r
      · simp [hr]
      · have hr' : ¬ r = s.Reference := fun hh => hr hh.symm
        simp [hr, hr']
    · simp

/-- Claim C10: after every batch consumed from the progress channel, the
reference list holds exactly one entry per distinct Reference seen so
far, in first-occurrence order (it equals the first-seen dedup of the
stream and is duplicate-free), and the cache maps every reference to the
most recently received status for it. -/
theorem showImageProgress_dedup_order (batches : List (List ProgressStatus)) :
    (showImageProgressState batches).statRefs
      = firstSeen ((batches.flatten).map ProgressStatus.Reference) ∧
    (showImageProgressState batches).statRefs.Nodup ∧
    (∀ r, r ∈ (showImageProgressState batches).statRefs ↔
       r ∈ (batches.flatten).map ProgressStatus.Reference) ∧
    (∀ r, alookup (showImageProgressState batches).statCached r
       = lastStatus r batches.flatten) := by
  have hjoin : showImageProgressState batches
      = (batches.flatten).foldl progressStep ⟨[], []⟩ :=
    (foldl_join_eq progressStep batches ⟨[], []⟩).symm
  have hinv0 : ∀ r, (alookup (⟨[], []⟩ : ProgressState).statCached r).isSome
      ↔ r ∈ (⟨[], []⟩ : ProgressState).statRefs := by
    simp [alookup]
  have hrefs := progress_fold_statRefs (batches.flatten) ⟨[], []⟩ hinv0
  refine ⟨?_, ?_, ?_, ?_⟩
  · rw [hjoin, hrefs]
    simp [firstSeen]
  · rw [hjoin, hrefs]
    simpa [firstSeen] using nodup_firstSeenFrom ((batches.flatten).map ProgressStatus.Reference) []
  · intro r
    rw [hjoin, hrefs]
    simp [firstSeen, mem_firstSeenFrom]
  · intro r
    rw [hjoin, progress_fold_statCached (batches.flatten) ⟨[], []⟩ r]
    rcases hls : lastStatus r batches.flatten with _ | x <;> simp [alookup]
